import Mathlib

/-!
Verification of the LyarisClient mining client: a shallow embedding of the
zigzag traversal planner, the adaptive timing policy, the dig-confirmation
waiter, the excavation engine's per-target loop, the anti-stuck recovery
subsystem and the navigator's timeout wrapper, with theorems checking the
natural-language specification against the embedded code.

Integer block coordinates are modelled as `Int`, entity (floating point)
coordinates and millisecond quantities derived from them as `Rat`, and
JavaScript's `Math.round` as `Int.floor (x + 1/2)`.
-/

namespace Lyaris

/-- Integer 3-D coordinate (the relevant fields of the `Vec3` class). -/
structure Vec3 where
  x : Int
  y : Int
  z : Int
deriving DecidableEq, Repr

/-- `NormalizedArea` from `types.ts`: a box given by its componentwise
minimum and maximum corners. -/
structure NormalizedArea where
  min : Vec3
  max : Vec3
deriving DecidableEq, Repr

/-- An arbitrary-corner `Area` (no ordering invariant). -/
structure Area where
  corner1 : Vec3
  corner2 : Vec3
deriving DecidableEq, Repr

/-- `MiningEngine.normalizeArea`: componentwise min/max of the two corners. -/
def normalizeArea (a : Area) : NormalizedArea :=
  { min := ⟨Min.min a.corner1.x a.corner2.x, Min.min a.corner1.y a.corner2.y,
            Min.min a.corner1.z a.corner2.z⟩,
    max := ⟨Max.max a.corner1.x a.corner2.x, Max.max a.corner1.y a.corner2.y,
            Max.max a.corner1.z a.corner2.z⟩ }

/-- The ascending integer loop `for (v = a; v <= b; v++)` as a list. -/
def intRange (a b : Int) : List Int :=
  (List.range (b - a + 1).toNat).map (fun k : Nat => a + (k : Int))

/-- One x-row of `generateZigzagPositions`: the inner `for` loop over `x`,
ascending when `rev = false`, descending (`for (x = max.x; x >= min.x; x--)`)
when `rev = true`. -/
def xRow (area : NormalizedArea) (y z : Int) (rev : Bool) : List Vec3 :=
  if rev then ((intRange area.min.x area.max.x).reverse).map (fun x => ⟨x, y, z⟩)
  else (intRange area.min.x area.max.x).map (fun x => ⟨x, y, z⟩)

/-- The middle `for` loop of `generateZigzagPositions` over `z`, threading the
`reverseX` flag that is toggled after every row. -/
def zLoop (area : NormalizedArea) (y : Int) : List Int → Bool → List Vec3
  | [], _ => []
  | z :: zs, rev => xRow area y z rev ++ zLoop area y zs (!rev)

/-- `generateZigzagPositions` from `zigzag-planner.ts`: `y` descends from
`max.y` to `min.y`; within each layer `z` ascends with `reverseX`
initialised to `false`. -/
def generateZigzagPositions (area : NormalizedArea) : List Vec3 :=
  ((intRange area.min.y area.max.y).reverse).flatMap
    (fun y => zLoop area y (intRange area.min.z area.max.z) false)

/-- The traversal order as the spec words it: `y` descending, `z` ascending,
and the row direction determined by the parity of `z - min.z`
(even rows ascend in `x`, odd rows descend). -/
def zigzagByParity (area : NormalizedArea) : List Vec3 :=
  ((intRange area.min.y area.max.y).reverse).flatMap
    (fun y => (intRange area.min.z area.max.z).flatMap
      (fun z => xRow area y z (decide ((z - area.min.z) % 2 = 1))))

/-- `MiningEngine.areaSize`: the volume of the normalized box. -/
def areaSize (area : NormalizedArea) : Int :=
  (area.max.x - area.min.x + 1) * (area.max.y - area.min.y + 1) *
    (area.max.z - area.min.z + 1)

/-- Membership of an integer point in the normalized box. -/
def inBox (area : NormalizedArea) (p : Vec3) : Prop :=
  area.min.x ≤ p.x ∧ p.x ≤ area.max.x ∧
  area.min.y ≤ p.y ∧ p.y ≤ area.max.y ∧
  area.min.z ≤ p.z ∧ p.z ≤ area.max.z

instance (area : NormalizedArea) (p : Vec3) : Decidable (inBox area p) := by
  unfold inBox; infer_instance

/-! ## Adaptive timing policy (`adaptive-timings.ts`) -/

/-- JavaScript `Math.round`: round half away from zero on positive halves,
i.e. `⌊x + 1/2⌋`. -/
def jsRound (q : Rat) : Int := Int.floor (q + 1 / 2)

/-- `AdaptiveTimings.digTimeout`:
`min(round((6000 + max(0, 2L)) * (20 / max(1, T))), 30000)`. -/
def digTimeout (l t : Rat) : Int :=
  Min.min (jsRound ((6000 + Max.max 0 (l * 2)) * (20 / Max.max 1 t))) 30000

/-- `AdaptiveTimings.pathfindTimeout`: `min(round(8000 + 3L), 30000)`. -/
def pathfindTimeout (l : Rat) : Int :=
  Min.min (jsRound (8000 + l * 3)) 30000

/-- `AdaptiveTimings.navigationTimeout`: `min(round(180000 + 10L), 300000)`. -/
def navigationTimeout (l : Rat) : Int :=
  Min.min (jsRound (180000 + l * 10)) 300000

/-- `AdaptiveTimings.postDigWaitTicks`: 6/4/3/2 for `L>400`/`>200`/`>100`/else. -/
def postDigWaitTicks (l : Rat) : Nat :=
  if l > 400 then 6 else if l > 200 then 4 else if l > 100 then 3 else 2

/-- `AdaptiveTimings.interBlockDelay`: `min(round(max(0, (L-50)*0.4)), 200)`. -/
def interBlockDelay (l : Rat) : Int :=
  Min.min (jsRound (Max.max 0 ((l - 50) * (4 / 10)))) 200

/-- `AdaptiveTimings.shouldAutoPause`: `L > 1000 || T < 5`. -/
def shouldAutoPause (l t : Rat) : Bool :=
  decide (l > 1000) || decide (t < 5)

/-- `AdaptiveTimings.recoveryCooldown`: `2000 + L` milliseconds. -/
def recoveryCooldown (l : Rat) : Rat := 2000 + l

/-- `AdaptiveTimings.stuckTicksThreshold`: 5/4/3 for `L>300`/`>150`/else. -/
def stuckTicksThreshold (l : Rat) : Int :=
  if l > 300 then 5 else if l > 150 then 4 else 3

/-- `AdaptiveTimings.minRecoveryLevel`: 2/1/0 for `L>300`/`>150`/else. -/
def minRecoveryLevel (l : Rat) : Int :=
  if l > 300 then 2 else if l > 150 then 1 else 0

/-- `AdaptiveTimings.safedigTimeout`: `min(5000 + 2L, 15000)` (no rounding in
the source). -/
def safedigTimeout (l : Rat) : Rat :=
  Min.min (5000 + l * 2) 15000

/-! ## Confirmation waiter (`position-confirmer.ts`) -/

/-- `PositionConfirmer.waitForBlockBreak`: poll one tick at a time, up to
`maxTicks` ticks, returning `true` as soon as the target location reports
empty. `emptyAt i` is the world's answer after the `i`-th wait (block absent
or named `air`/`cave_air`/`void_air`). -/
def waitForBlockBreak (emptyAt : Nat → Bool) : Nat → Bool
  | 0 => false
  | n + 1 => if emptyAt 0 then true else waitForBlockBreak (fun i => emptyAt (i + 1)) n

/-- `PositionConfirmer.getAdaptiveWaitTicks`: 6/4/3/2 for
`ping>400`/`>200`/`>100`/else. -/
def getAdaptiveWaitTicks (l : Rat) : Nat :=
  if l > 400 then 6 else if l > 200 then 4 else if l > 100 then 3 else 2

/-- `PositionConfirmer.waitAfterDig`: `waitForBlockBreak` with the adaptive
tick count. -/
def waitAfterDig (l : Rat) (emptyAt : Nat → Bool) : Bool :=
  waitForBlockBreak emptyAt (getAdaptiveWaitTicks l)

/-! ## Excavation engine per-target loop (`mining-engine.ts`) -/

/-- `MiningStatus` values. -/
inductive MStatus
  | idle
  | mining
  | paused
  | traveling
  | finished
  | errored
deriving DecidableEq, Repr

/-- The engine state fields touched by the per-target loop: the status, the
mined counter, the last value persisted by `stateManager.save` (`none` if no
save has happened yet), the running count of dig commands issued, and the
user-facing error string. -/
structure MineCtx where
  status : MStatus
  minedBlocks : Nat
  savedMined : Option Nat
  digsIssued : Nat
  errorMsg : Option String
deriving DecidableEq, Repr

/-- What the environment does to one iteration of the `mineBlock` retry loop:
the status is observed as idle (`abortIdle`), the target is gone or not worth
excavating (`skipTarget`), the navigation/look/dig sequence throws or times
out (`digFail`, caught by the `catch` that increments `attempts`), or the dig
resolves locally (`digSuccess confirmed`, where `confirmed` is the boolean
returned by `waitAfterDig`). -/
inductive IterEvent
  | abortIdle
  | skipTarget
  | digFail
  | digSuccess (confirmed : Bool)
deriving DecidableEq, Repr

/-- How one call of `mineBlock` ended. -/
inductive MineResult
  | mined
  | skipped
  | aborted
  | exhausted
  | outOfEvents
deriving DecidableEq, Repr

/-- `MiningEngine.mineBlock`: `while (attempts < maxAttempts)` with
`maxAttempts = 3`. A `digFail` iteration runs the `catch` (`attempts++`) and
loops; a `digSuccess` iteration calls `waitAfterDig`, discards its boolean,
saves `state.minedBlocks` (its pre-increment value) and returns. -/
def mineBlockRun (c : MineCtx) (attempts : Nat) : List IterEvent → MineCtx × MineResult
  | [] => (c, if attempts < 3 then .outOfEvents else .exhausted)
  | e :: rest =>
    if attempts < 3 then
      match e with
      | .abortIdle => (c, .aborted)
      | .skipTarget => (c, .skipped)
      | .digFail => mineBlockRun { c with digsIssued := c.digsIssued + 1 } (attempts + 1) rest
      | .digSuccess _ =>
        ({ c with digsIssued := c.digsIssued + 1, savedMined := some c.minedBlocks }, .mined)
    else (c, .exhausted)

/-- One iteration of the `for` loop in `MiningEngine.mineArea` at index `i`,
restricted to the fields of `MineCtx`: the idle check at the head, the
periodic save every 50 indices, the call to `mineBlock`, and the
unconditional `state.minedBlocks = i + 1` afterwards. (The auto-pause,
health, manual-pause and eating blocks in between touch neither
`minedBlocks` nor the persisted value at this point.) -/
def mineAreaStep (c : MineCtx) (i : Nat) (evs : List IterEvent) : MineCtx × MineResult :=
  if c.status = .idle then (c, .aborted)
  else
    let c1 := if i % 50 = 0 then { c with savedMined := some c.minedBlocks } else c
    let r := mineBlockRun c1 0 evs
    ({ r.1 with minedBlocks := i + 1 }, r.2)

/-- Saved progress (`SavedMiningState`): the persisted
`{ area, minedBlocks }` record. -/
structure SavedMiningState where
  area : NormalizedArea
  minedBlocks : Nat
deriving DecidableEq, Repr

/-- The first target the loop attempts after `resumeIfNeeded`:
`resumeIfNeeded` reconstructs the area and calls
`start(area, saved.minedBlocks)`, and `mineArea` starts its loop at
`i = startIndex`, so the first position attempted is
`generateZigzagPositions(area)[saved.minedBlocks]`. -/
def firstResumedTarget (s : SavedMiningState) : Option Vec3 :=
  (generateZigzagPositions s.area)[s.minedBlocks]?

/-! ## Auto-pause block of `mineArea` (lines 421-433) -/

/-- The entry of the auto-pause block: when the trigger is set and the status
is `mining`, the status becomes `paused`, the error string is set and a
`mining:paused` event with reason `high_ping` is emitted (second component). -/
def autoPauseEnter (c : MineCtx) (trig : Bool) : MineCtx × Option String :=
  if trig ∧ c.status = .mining then
    ({ c with status := .paused, errorMsg := some "Auto-paused: bad connection" },
      some "high_ping")
  else (c, none)

/-- The exit of the auto-pause block, run after the busy-wait loop
`while (shouldAutoPause && status == paused)` has ended (none of the waited
iterations mutates the state): if the status is still `paused` it returns to
`mining` and the error string is cleared. -/
def autoPauseResume (c : MineCtx) : MineCtx :=
  if c.status = .paused then { c with status := .mining, errorMsg := none } else c

/-! ## Anti-stuck recovery subsystem (`anti-stuck.ts`) -/

/-- `AntiStuck.stats`. -/
structure ASStats where
  totalRecoveries : Nat
  suffocations : Nat
  stalls : Nat
  rubberBands : Nat
  loops : Nat
deriving DecidableEq, Repr

/-- The `AntiStuck` fields relevant to the recovery ladder. Times are
rational milliseconds. -/
structure ASState where
  active : Bool
  recovering : Bool
  recoveryLevel : Int
  lastRecoveryTime : Rat
  stuckTicks : Int
  consecutiveStucks : Nat
  stats : ASStats
deriving DecidableEq, Repr

/-- `MAX_RECOVERY_LEVEL` in `anti-stuck.ts`. -/
def MAX_RECOVERY_LEVEL : Int := 5

/-- `AntiStuck` constructor/initial field values. -/
def asInit : ASState :=
  { active := false, recovering := false, recoveryLevel := 0, lastRecoveryTime := 0,
    stuckTicks := 0, consecutiveStucks := 0,
    stats := ⟨0, 0, 0, 0, 0⟩ }

/-- The environment of one `triggerRecovery` call: the clock reading `now`,
the current median latency `ping`, whether the post-recovery re-check
(`getOverlappingBlocks ++ getBlockingBlocks` nonempty) still reports an
obstruction, whether an exception escaped into the `catch` branch, and — when
the emergency (default) handler ran and an exception occurred — whether its
final ladder reset had already executed. -/
structure TriggerEnv where
  now : Rat
  ping : Rat
  stillStuck : Bool
  errored : Bool
  lvl5ResetRan : Bool
deriving DecidableEq, Repr

/-- The floor-raise of `triggerRecovery`:
`if (recoveryLevel < minLevel) recoveryLevel = minLevel`. -/
def raisedLevel (lvl minLvl : Int) : Int :=
  if lvl < minLvl then minLvl else lvl

/-- Whether the level hits one of the explicit `switch` cases 0-4 (anything
else falls to the emergency default handler). -/
def lowLadderCase (lvl : Int) : Prop :=
  lvl = 0 ∨ lvl = 1 ∨ lvl = 2 ∨ lvl = 3 ∨ lvl = 4

instance (lvl : Int) : Decidable (lowLadderCase lvl) := by
  unfold lowLadderCase; infer_instance

/-- Whether the emergency default handler reached its trailing
`recoveryLevel = 0; consecutiveStucks = 0` lines: it ran (not a 0-4 case)
and either no exception escaped or the reset preceded the exception. -/
def emergencyResetRan (lvl : Int) (errored lvl5ResetRan : Bool) : Prop :=
  ¬lowLadderCase lvl ∧ (errored = false ∨ lvl5ResetRan = true)

instance (lvl : Int) (er lr : Bool) : Decidable (emergencyResetRan lvl er lr) := by
  unfold emergencyResetRan; infer_instance

/-- The ladder level after the handler ran: the emergency reset zeroes it,
the 0-4 handlers leave it alone. -/
def levelAfterHandler (lvl : Int) (errored lvl5ResetRan : Bool) : Int :=
  if emergencyResetRan lvl errored lvl5ResetRan then 0 else lvl

/-- The ladder level after the post-handler step: the `catch` branch and a
still-obstructed re-check both escalate capped at `MAX_RECOVERY_LEVEL`; a
clear re-check de-escalates with floor 0. -/
def levelAfterRecheck (lvl : Int) (errored stillStuck : Bool) : Int :=
  if errored then Min.min (lvl + 1) MAX_RECOVERY_LEVEL
  else if stillStuck then Min.min (lvl + 1) MAX_RECOVERY_LEVEL
  else Max.max 0 (lvl - 1)

/-- `AntiStuck.triggerRecovery`: re-entrancy guard, adaptive cooldown guard,
stat/flag updates, floor-raise of the level to `minRecoveryLevel`, the
`switch` over levels 0-4 with the emergency default (which resets the ladder
and `consecutiveStucks` to 0 at its end), then either the `catch` escalation
or the still-stuck re-check (escalate capped at `MAX_RECOVERY_LEVEL`,
else de-escalate with floor 0 and reset `stuckTicks`), and the `finally`
clearing of the in-recovery flag; written as the resulting state directly
(the transient `_recovering = true` phase has no other observable effect
here). -/
def triggerRecovery (s : ASState) (e : TriggerEnv) : ASState :=
  if s.recovering then s
  else if e.now - s.lastRecoveryTime < recoveryCooldown e.ping then s
  else
    let raised := raisedLevel s.recoveryLevel (minRecoveryLevel e.ping)
    { s with
      recovering := false
      lastRecoveryTime := e.now
      stats := { s.stats with totalRecoveries := s.stats.totalRecoveries + 1 }
      consecutiveStucks :=
        if emergencyResetRan raised e.errored e.lvl5ResetRan then 0
        else s.consecutiveStucks + 1
      stuckTicks :=
        if e.errored = false ∧ e.stillStuck = false then 0 else s.stuckTicks
      recoveryLevel :=
        levelAfterRecheck (levelAfterHandler raised e.errored e.lvl5ResetRan)
          e.errored e.stillStuck }

/-- The suffocation branch of the `physicTick` listener installed by
`startTickMonitor`: with overlapping blocks present, `stuckTicks` increments
and, past the adaptive threshold, the suffocation stat increments and
`triggerRecovery('suffocation')` is invoked. -/
def tickMonitorOverlap (s : ASState) (e : TriggerEnv) : ASState :=
  if s.recovering then s
  else if s.stuckTicks + 1 ≥ stuckTicksThreshold e.ping then
    triggerRecovery
      { s with
        stuckTicks := s.stuckTicks + 1
        stats := { s.stats with suffocations := s.stats.suffocations + 1 } } e
  else { s with stuckTicks := s.stuckTicks + 1 }

/-- The clear branch of the `physicTick` listener: no overlapping blocks, so
a positive `stuckTicks` de-escalates the level by one (floor 0) and
`stuckTicks` resets. -/
def tickMonitorClear (s : ASState) : ASState :=
  if s.recovering then s
  else if s.stuckTicks > 0 then
    { s with
      recoveryLevel := Max.max 0 (s.recoveryLevel - 1)
      stuckTicks := 0 }
  else { s with stuckTicks := 0 }

/-- `AntiStuck.enable` (level-relevant part: no level change). -/
def asEnable (s : ASState) : ASState :=
  if s.active then s else { s with active := true }

/-- `AntiStuck.disable`: clears the ladder and counters. -/
def asDisable (s : ASState) : ASState :=
  if !s.active then s
  else { s with active := false, recoveryLevel := 0, consecutiveStucks := 0, stuckTicks := 0 }

/-- `AntiStuck.reset`: zeroes the ladder, counters and statistics. -/
def asReset (s : ASState) : ASState :=
  { s with
    recoveryLevel := 0
    consecutiveStucks := 0
    stuckTicks := 0
    stats := ⟨0, 0, 0, 0, 0⟩ }

/-- A recovery-relevant event hitting the `AntiStuck` state. -/
inductive ASEvent
  | trigger (e : TriggerEnv)
  | tickOverlap (e : TriggerEnv)
  | tickClear
  | enable
  | disable
  | reset
deriving DecidableEq, Repr

/-- Apply one event. -/
def asApply (s : ASState) : ASEvent → ASState
  | .trigger e => triggerRecovery s e
  | .tickOverlap e => tickMonitorOverlap s e
  | .tickClear => tickMonitorClear s
  | .enable => asEnable s
  | .disable => asDisable s
  | .reset => asReset s

/-- Apply a sequence of events. -/
def asRun (evs : List ASEvent) : ASState :=
  evs.foldl asApply asInit

/-! ## Navigator timeout wrapper (`navigator.ts`, `gotoWithTimeout`) -/

/-- Failure values `gotoWithTimeout` can reject with: the `Error('Path
timeout')` created in the timer callback, or whatever error the underlying
`pathfinder.goto` promise rejected with. -/
inductive NavErr
  | pathTimeout
  | solverFailure (msg : String)
deriving DecidableEq, Repr

/-- The mutable picture of one `gotoWithTimeout` call: the `isDone` flag, the
stall accumulator `stuckMs`, whether any movement control input set by this
call is currently engaged, whether the timeout timer and the stuck-checker
interval are still scheduled, whether `pathfinder.stop()` has been invoked,
and the settled outcome of the promise (`none` while pending). -/
structure NavState where
  isDone : Bool
  stuckMs : Nat
  controlsActive : Bool
  timerActive : Bool
  checkerActive : Bool
  solveCancelled : Bool
  result : Option (Option NavErr)
deriving DecidableEq, Repr

/-- State at entry of `gotoWithTimeout`; `c0` is whatever control inputs were
engaged beforehand. -/
def navInit (c0 : Bool) : NavState :=
  { isDone := false, stuckMs := 0, controlsActive := c0, timerActive := true,
    checkerActive := true, solveCancelled := false, result := none }

/-- The local `finish` closure: a no-op once `isDone` is set; otherwise it
sets `isDone`, clears the stuck-checker interval and the timer, calls
`bot.clearControlStates()`, and settles the promise. -/
def navFinish (s : NavState) (err : Option NavErr) : NavState :=
  if s.isDone then s
  else
    { s with
      isDone := true
      checkerActive := false
      timerActive := false
      controlsActive := false
      result := some err }

/-- Events that can fire during one `gotoWithTimeout` call. `tick moved`
is the stuck-checker interval (`moved` = displacement since the last sample
reached 0.2); `jumpRelease` is the 250 ms callback releasing the jump
impulse; the last three are the solver promise settling and the timeout
timer. -/
inductive NavEvent
  | tick (moved : Bool)
  | jumpRelease
  | solverOk
  | solverFail (msg : String)
  | timerFire
deriving DecidableEq, Repr

/-- One event against the `gotoWithTimeout` state. The stuck branch (2000 ms
of accumulated no-progress at the 500 ms `stuckCheckInterval`) engages the
jump control and resets the accumulator; the timer callback calls
`pathfinder.stop()` and fails with the path-timeout error. A cleared timer
or interval no longer fires, and both callbacks also guard on `isDone`. -/
def navStep (s : NavState) : NavEvent → NavState
  | .tick moved =>
    if s.isDone ∨ ¬s.checkerActive then s
    else if moved then { s with stuckMs := 0 }
    else if s.stuckMs + 500 ≥ 2000 then { s with controlsActive := true, stuckMs := 0 }
    else { s with stuckMs := s.stuckMs + 500 }
  | .jumpRelease => if s.isDone then s else { s with controlsActive := false }
  | .solverOk => navFinish s none
  | .solverFail msg => navFinish s (some (.solverFailure msg))
  | .timerFire =>
    if ¬s.timerActive then s
    else navFinish { s with solveCancelled := true } (some .pathTimeout)

/-- Run a whole event trace of one `gotoWithTimeout` call. -/
def navRun (c0 : Bool) (evs : List NavEvent) : NavState :=
  evs.foldl navStep (navInit c0)

/-! ## World blocks and the recovery digs (`anti-stuck.ts`) -/

/-- The fields of a `prismarine-block` `Block` the recovery code reads. -/
structure Block where
  name : String
  boundingBox : String
  position : Vec3
deriving DecidableEq, Repr

/-- A world: `bot.blockAt`, partial over integer coordinates. -/
def World : Type := Vec3 → Option Block

/-- Entity position: floating-point coordinates, modelled as rationals. -/
structure EntityPos where
  x : Rat
  y : Rat
  z : Rat
deriving DecidableEq, Repr

/-- `Vec3.offset`. -/
def Vec3.offsetBy (v : Vec3) (dx dy dz : Int) : Vec3 :=
  ⟨v.x + dx, v.y + dy, v.z + dz⟩

/-- `AntiStuck.getOverlappingBlocks`: scan the integer cells meeting the
0.6 × 1.8 × 0.6 player hitbox, skipping missing blocks, non-solid bounding
boxes and bedrock, and keep the ones whose unit cell strictly overlaps the
hitbox. -/
def getOverlappingBlocks (w : World) (pos : EntityPos) : List Block :=
  let mnX := pos.x - 3 / 10
  let mxX := pos.x + 3 / 10
  let mnY := pos.y
  let mxY := pos.y + 9 / 5
  let mnZ := pos.z - 3 / 10
  let mxZ := pos.z + 3 / 10
  (intRange (Int.floor mnX) (Int.floor mxX)).flatMap (fun bx =>
    (intRange (Int.floor mnY) (Int.floor mxY)).flatMap (fun my =>
      (intRange (Int.floor mnZ) (Int.floor mxZ)).filterMap (fun bz =>
        match w ⟨bx, my, bz⟩ with
        | none => none
        | some b =>
          if b.boundingBox ≠ "block" then none
          else if b.name = "bedrock" then none
          else
            let bMin := b.position
            let bMax := b.position.offsetBy 1 1 1
            if mnX < bMax.x ∧ mxX > bMin.x ∧
               mnY < bMax.y ∧ mxY > bMin.y ∧
               mnZ < bMax.z ∧ mxZ > bMin.z then some b
            else none)))

/-- `AntiStuck.clearOverlapping`: the blocks actually dug are the overlapping
ones that pass `toolSelector.shouldMine`. -/
def clearOverlappingDigs (shouldMine : Block → Bool) (w : World) (pos : EntityPos) :
    List Block :=
  (getOverlappingBlocks w pos).filter shouldMine

/-- `AntiStuck.recoverLevel5_emergency`: the positions/blocks dug by the
emergency clear around the floored entity position — `dy` from -1 to 3,
`dx`/`dz` from -1 to 1, skipping the cell directly beneath the feet
(`dx = 0 ∧ dz = 0 ∧ dy = -1`), and digging only present blocks with a solid
bounding box whose name is not bedrock. -/
def recoverLevel5Digs (w : World) (feet : Vec3) : List (Vec3 × Block) :=
  (intRange (-1) 3).flatMap (fun dy =>
    (intRange (-1) 1).flatMap (fun dx =>
      (intRange (-1) 1).filterMap (fun dz =>
        if dx = 0 ∧ dz = 0 ∧ dy = -1 then none
        else
          match w (feet.offsetBy dx dy dz) with
          | none => none
          | some b =>
            if b.boundingBox = "block" ∧ b.name ≠ "bedrock" then
              some (feet.offsetBy dx dy dz, b)
            else none)))

/-! ## Lemmas about integer ranges -/

theorem length_intRange (a b : Int) : (intRange a b).length = (b - a + 1).toNat := by
  rw [intRange, List.length_map, List.length_range]

theorem mem_intRange {a b x : Int} : x ∈ intRange a b ↔ a ≤ x ∧ x ≤ b := by
  simp only [intRange, List.mem_map, List.mem_range]
  constructor
  · rintro ⟨k, hk, rfl⟩
    omega
  · intro h
    exact ⟨(x - a).toNat, by omega, by omega⟩

theorem nodup_intRange (a b : Int) : (intRange a b).Nodup :=
  List.Nodup.map (fun x y h => by omega) (List.nodup_range _)

theorem count_intRange (a b x : Int) :
    (intRange a b).count x = if a ≤ x ∧ x ≤ b then 1 else 0 := by
  split_ifs with h
  · exact List.count_eq_one_of_mem (nodup_intRange a b) (mem_intRange.2 h)
  · exact List.count_eq_zero_of_not_mem (fun hm => h (mem_intRange.1 hm))

theorem intRange_eq_nil {a b : Int} (h : b < a) : intRange a b = [] := by
  have : (b - a + 1).toNat = 0 := by omega
  simp [intRange, this]

theorem intRange_eq_cons {a b : Int} (h : a ≤ b) :
    intRange a b = a :: intRange (a + 1) b := by
  simp only [intRange]
  have hn : (b - a + 1).toNat = (b - (a + 1) + 1).toNat + 1 := by omega
  rw [hn, List.range_succ_eq_map, List.map_cons, List.map_map]
  refine congrArg₂ _ (by omega) ?_
  exact List.map_congr_left (fun k _ => by simp [Function.comp]; omega)

/-! ## Lemmas about the zigzag traversal -/

theorem length_xRow (area : NormalizedArea) (y z : Int) (rev : Bool) :
    (xRow area y z rev).length = (area.max.x - area.min.x + 1).toNat := by
  cases rev <;> simp [xRow, length_intRange]

theorem count_map_mk (y z px py pz : Int) (l : List Int) :
    (l.map (fun x => (⟨x, y, z⟩ : Vec3))).count ⟨px, py, pz⟩ =
      if py = y ∧ pz = z then l.count px else 0 := by
  induction l with
  | nil => simp
  | cons x xs ih =>
    simp only [List.map_cons, List.count_cons, ih, beq_iff_eq, Vec3.mk.injEq]
    by_cases hy : py = y <;> by_cases hz : pz = z <;> by_cases hx : x = px <;>
      simp [hy, hz, hx, eq_comm] <;> split_ifs <;> omega

theorem count_xRow (area : NormalizedArea) (y z : Int) (rev : Bool) (p : Vec3) :
    (xRow area y z rev).count p =
      if p.y = y ∧ p.z = z ∧ area.min.x ≤ p.x ∧ p.x ≤ area.max.x then 1 else 0 := by
  obtain ⟨px, py, pz⟩ := p
  have base : ((intRange area.min.x area.max.x).map
        (fun x => (⟨x, y, z⟩ : Vec3))).count ⟨px, py, pz⟩ =
      if py = y ∧ pz = z ∧ area.min.x ≤ px ∧ px ≤ area.max.x then 1 else 0 := by
    rw [count_map_mk, count_intRange]
    split_ifs <;> tauto
  cases rev
  · simpa [xRow] using base
  · rw [xRow, if_pos rfl, List.map_reverse, List.count_reverse]
    simpa using base

theorem length_zLoop (area : NormalizedArea) (y : Int) :
    ∀ (zs : List Int) (rev : Bool),
      (zLoop area y zs rev).length = zs.length * (area.max.x - area.min.x + 1).toNat := by
  intro zs
  induction zs with
  | nil => intro rev; simp [zLoop]
  | cons z zs ih =>
    intro rev
    simp only [zLoop, List.length_append, length_xRow, ih, List.length_cons]
    ring

theorem count_zLoop (area : NormalizedArea) (y : Int) (p : Vec3) :
    ∀ (zs : List Int) (rev : Bool),
      (zLoop area y zs rev).count p =
        if p.y = y ∧ area.min.x ≤ p.x ∧ p.x ≤ area.max.x then zs.count p.z else 0 := by
  intro zs
  induction zs with
  | nil => intro rev; simp [zLoop]
  | cons z zs ih =>
    intro rev
    simp only [zLoop, List.count_append, count_xRow, ih, List.count_cons, beq_iff_eq]
    by_cases h1 : p.y = y <;> by_cases h2 : z = p.z <;>
      by_cases h3 : area.min.x ≤ p.x ∧ p.x ≤ area.max.x <;>
      simp [h1, h2, h3, eq_comm] <;> first | omega | (split_ifs <;> omega)

theorem zLoop_parity (area : NormalizedArea) (y : Int) :
    ∀ (n : Nat) (a b : Int) (rev : Bool), (b - a + 1).toNat = n →
      zLoop area y (intRange a b) rev =
        (intRange a b).flatMap
          (fun z => xRow area y z (xor rev (decide ((z - a) % 2 = 1)))) := by
  intro n
  induction n with
  | zero =>
    intro a b rev h
    rw [intRange_eq_nil (by omega)]
    simp [zLoop]
  | succ n ih =>
    intro a b rev h
    rw [intRange_eq_cons (by omega)]
    simp only [zLoop, List.flatMap_cons]
    have h0 : xRow area y a rev = xRow area y a (xor rev (decide ((a - a) % 2 = 1))) := by
      norm_num
    rw [← h0, ih (a + 1) b (!rev) (by omega)]
    refine congrArg _ ?_
    refine List.flatMap_congr fun z hz => ?_
    have hz1 : a + 1 ≤ z := (mem_intRange.1 hz).1
    refine congrArg _ ?_
    rcases Int.emod_two_eq_zero_or_one (z - (a + 1)) with h2 | h2
    · have h3 : (z - a) % 2 = 1 := by omega
      have h4 : ¬(z - (a + 1)) % 2 = 1 := by omega
      simp [h3, h4]
    · have h3 : ¬(z - a) % 2 = 1 := by omega
      simp [h2, h3]

theorem zigzag_length_yloop (area : NormalizedArea) :
    ∀ ys : List Int,
      (ys.flatMap (fun y => zLoop area y (intRange area.min.z area.max.z) false)).length =
        ys.length *
          ((area.max.z - area.min.z + 1).toNat * (area.max.x - area.min.x + 1).toNat) := by
  intro ys
  induction ys with
  | nil => simp
  | cons yy ys ih =>
    simp only [List.flatMap_cons, List.length_append, ih, length_zLoop, length_intRange,
      List.length_cons]
    ring

theorem zigzag_count_yloop (area : NormalizedArea) (p : Vec3) :
    ∀ ys : List Int,
      (ys.flatMap (fun y => zLoop area y (intRange area.min.z area.max.z) false)).count p =
        if area.min.x ≤ p.x ∧ p.x ≤ area.max.x ∧ area.min.z ≤ p.z ∧ p.z ≤ area.max.z then
          ys.count p.y
        else 0 := by
  intro ys
  induction ys with
  | nil => simp
  | cons yy ys ih =>
    simp only [List.flatMap_cons, List.count_append, ih, count_zLoop, count_intRange,
      List.count_cons, beq_iff_eq]
    by_cases h1 : p.y = yy <;>
      by_cases h2 : area.min.x ≤ p.x ∧ p.x ≤ area.max.x <;>
      by_cases h3 : area.min.z ≤ p.z ∧ p.z ≤ area.max.z <;>
      simp [h1, h2, h3, eq_comm] <;> first | omega | (split_ifs <;> omega)

theorem length_generateZigzagPositions (area : NormalizedArea) :
    (generateZigzagPositions area).length =
      (area.max.x - area.min.x + 1).toNat * (area.max.y - area.min.y + 1).toNat *
        (area.max.z - area.min.z + 1).toNat := by
  rw [generateZigzagPositions, zigzag_length_yloop, List.length_reverse, length_intRange]
  ring

theorem count_generateZigzagPositions (area : NormalizedArea) (p : Vec3) :
    (generateZigzagPositions area).count p = if inBox area p then 1 else 0 := by
  rw [generateZigzagPositions, zigzag_count_yloop, List.count_reverse, count_intRange]
  unfold inBox
  split_ifs <;> tauto

theorem generateZigzagPositions_eq_parity (area : NormalizedArea) :
    generateZigzagPositions area = zigzagByParity area := by
  unfold generateZigzagPositions zigzagByParity
  refine congrArg _ (funext fun y => ?_)
  rw [zLoop_parity area y ((area.max.z - area.min.z + 1).toNat) area.min.z area.max.z false rfl]
  refine List.flatMap_congr fun z _ => by simp

/-! ## Claim theorems -/

/-- C1: for every NormalizedRegion (min ≤ max componentwise) the traversal
planner `generateZigzagPositions` returns exactly `areaSize` (= volume)
coordinates, every integer point of the box appears exactly once (count 1
inside, 0 outside), the order is the boustrophedon form — `y` descending,
`z` ascending per layer, and the `x` direction of a row given by the parity
of `z - min.z` (even ascending, odd descending) — and the normalized region
(0,0,0)-(1,0,1) yields exactly (0,0,0),(1,0,0),(1,0,1),(0,0,1). -/
theorem zigzag_planner_correct (area : NormalizedArea)
    (hx : area.min.x ≤ area.max.x) (hy : area.min.y ≤ area.max.y)
    (hz : area.min.z ≤ area.max.z) :
    ((generateZigzagPositions area).length : Int) = areaSize area ∧
    (∀ p : Vec3, (generateZigzagPositions area).count p = if inBox area p then 1 else 0) ∧
    generateZigzagPositions area = zigzagByParity area ∧
    generateZigzagPositions (normalizeArea ⟨⟨0, 0, 0⟩, ⟨1, 0, 1⟩⟩) =
      [⟨0, 0, 0⟩, ⟨1, 0, 0⟩, ⟨1, 0, 1⟩, ⟨0, 0, 1⟩] := by
  refine ⟨?_, count_generateZigzagPositions area,
    generateZigzagPositions_eq_parity area, by decide⟩
  rw [length_generateZigzagPositions, areaSize]
  push_cast [Int.toNat_of_nonneg (by omega : (0:Int) ≤ area.max.x - area.min.x + 1),
    Int.toNat_of_nonneg (by omega : (0:Int) ≤ area.max.y - area.min.y + 1),
    Int.toNat_of_nonneg (by omega : (0:Int) ≤ area.max.z - area.min.z + 1)]
  ring

/-- Witness for C1 at the normalized region (0,0,0)-(1,0,1). -/
theorem zigzag_planner_correct_witness :
    ((0:Int) ≤ 1 ∧ (0:Int) ≤ 0 ∧ (0:Int) ≤ 1) ∧
    (((generateZigzagPositions ⟨⟨0, 0, 0⟩, ⟨1, 0, 1⟩⟩).length : Int) =
        areaSize ⟨⟨0, 0, 0⟩, ⟨1, 0, 1⟩⟩ ∧
      (∀ p : Vec3, (generateZigzagPositions ⟨⟨0, 0, 0⟩, ⟨1, 0, 1⟩⟩).count p =
        if inBox ⟨⟨0, 0, 0⟩, ⟨1, 0, 1⟩⟩ p then 1 else 0) ∧
      generateZigzagPositions ⟨⟨0, 0, 0⟩, ⟨1, 0, 1⟩⟩ =
        zigzagByParity ⟨⟨0, 0, 0⟩, ⟨1, 0, 1⟩⟩ ∧
      generateZigzagPositions (normalizeArea ⟨⟨0, 0, 0⟩, ⟨1, 0, 1⟩⟩) =
        [⟨0, 0, 0⟩, ⟨1, 0, 0⟩, ⟨1, 0, 1⟩, ⟨0, 0, 1⟩]) :=
  ⟨⟨by decide, by decide, by decide⟩,
    zigzag_planner_correct ⟨⟨0, 0, 0⟩, ⟨1, 0, 1⟩⟩ (by decide) (by decide) (by decide)⟩

/-- C7: `digTimeout` is strictly larger at `L = 500, T = 20` than at
`L = 0, T = 20` (6000 ms versus 7000 ms), and for all latency and tick-rate
inputs each capped timing quantity respects its documented cap: dig timeout
≤ 30000 ms, near-path timeout ≤ 30000 ms, long navigation timeout
≤ 300000 ms, inter-step delay ≤ 200 ms and safe-clear timeout ≤ 15000 ms. -/
theorem timing_monotone_and_caps :
    digTimeout 0 20 < digTimeout 500 20 ∧
    (∀ l t : Rat, digTimeout l t ≤ 30000) ∧
    (∀ l : Rat, pathfindTimeout l ≤ 30000) ∧
    (∀ l : Rat, navigationTimeout l ≤ 300000) ∧
    (∀ l : Rat, interBlockDelay l ≤ 200) ∧
    (∀ l : Rat, safedigTimeout l ≤ 15000) := by
  have h0 : digTimeout 0 20 = 6000 := by
    norm_num [digTimeout, jsRound]
  have h500 : digTimeout 500 20 = 7000 := by
    norm_num [digTimeout, jsRound]
  exact ⟨by rw [h0, h500]; norm_num, fun l t => min_le_right _ _, fun l => min_le_right _ _,
    fun l => min_le_right _ _, fun l => min_le_right _ _, fun l => min_le_right _ _⟩

/-- C3 counterexample: at latency exactly 1000 ms (tick rate 20) the
auto-pause trigger is `false` — the source compares with a strict
`ping > 1000` — so the engine does not pause: the auto-pause block leaves a
mining state unchanged and emits no pause event. -/
theorem auto_pause_trigger_false_at_1000 :
    shouldAutoPause 1000 20 = false ∧
    autoPauseEnter ⟨.mining, 7, none, 0, none⟩ (shouldAutoPause 1000 20) =
      (⟨.mining, 7, none, 0, none⟩, none) := by
  decide

/-- C3 (amended): when the latency is strictly above 1000 ms — for example
1001 ms at tick rate 20 — the auto-pause trigger is true; an engine in
status `mining` transitions to `paused` with reason `high_ping`, and after
the busy-wait loop exits it transitions back to `mining`, the mined count
unchanged across the pause. -/
theorem auto_pause_high_ping_cycle (c : MineCtx) (h : c.status = .mining) :
    shouldAutoPause 1001 20 = true ∧
    (autoPauseEnter c (shouldAutoPause 1001 20)).2 = some "high_ping" ∧
    (autoPauseEnter c (shouldAutoPause 1001 20)).1.status = .paused ∧
    (autoPauseEnter c (shouldAutoPause 1001 20)).1.minedBlocks = c.minedBlocks ∧
    (autoPauseResume (autoPauseEnter c (shouldAutoPause 1001 20)).1).status = .mining ∧
    (autoPauseResume (autoPauseEnter c (shouldAutoPause 1001 20)).1).minedBlocks =
      c.minedBlocks := by
  have ht : shouldAutoPause 1001 20 = true := by decide
  rw [ht]
  simp [autoPauseEnter, autoPauseResume, h]

/-- Witness for C3 at a concrete mining state. -/
theorem auto_pause_high_ping_cycle_witness :
    shouldAutoPause 1001 20 = true ∧
    (autoPauseEnter ⟨.mining, 7, none, 0, none⟩ (shouldAutoPause 1001 20)).2 =
      some "high_ping" ∧
    (autoPauseEnter ⟨.mining, 7, none, 0, none⟩ (shouldAutoPause 1001 20)).1.status =
      .paused ∧
    (autoPauseEnter ⟨.mining, 7, none, 0, none⟩ (shouldAutoPause 1001 20)).1.minedBlocks =
      (⟨.mining, 7, none, 0, none⟩ : MineCtx).minedBlocks ∧
    (autoPauseResume
        (autoPauseEnter ⟨.mining, 7, none, 0, none⟩ (shouldAutoPause 1001 20)).1).status =
      .mining ∧
    (autoPauseResume
        (autoPauseEnter ⟨.mining, 7, none, 0, none⟩ (shouldAutoPause 1001 20)).1).minedBlocks =
      (⟨.mining, 7, none, 0, none⟩ : MineCtx).minedBlocks :=
  auto_pause_high_ping_cycle ⟨.mining, 7, none, 0, none⟩ rfl

theorem waitForBlockBreak_eq_true_iff (n : Nat) : ∀ emptyAt : Nat → Bool,
    waitForBlockBreak emptyAt n = true ↔ ∃ i, i < n ∧ emptyAt i = true := by
  induction n with
  | zero => intro f; simp [waitForBlockBreak]
  | succ n ih =>
    intro f
    rw [waitForBlockBreak]
    by_cases h : f 0 = true
    · simp only [h, if_true, true_iff]
      exact ⟨0, Nat.succ_pos n, h⟩
    · rw [if_neg h, ih (fun i => f (i + 1))]
      constructor
      · rintro ⟨i, hi, he⟩
        exact ⟨i + 1, by omega, he⟩
      · rintro ⟨i, hi, he⟩
        match i, he with
        | 0, he => exact absurd he h
        | j + 1, he => exact ⟨j, by omega, he⟩

/-- C4 counterexample: an unconfirmed dig is not treated as a failure. With
latency 0 and a block that never reads empty, `waitAfterDig` returns
`false`, yet the `mineBlock` attempt loop records the attempt as a success
(result `mined`, progress persisted) and does not retry — the trailing
retry-available event stays unconsumed and only one dig is issued. -/
theorem unconfirmed_dig_recorded_as_success :
    waitAfterDig 0 (fun _ => false) = false ∧
    (mineBlockRun ⟨.mining, 5, none, 0, none⟩ 0
        [.digSuccess (waitAfterDig 0 (fun _ => false)), .digFail]).2 = .mined ∧
    (mineBlockRun ⟨.mining, 5, none, 0, none⟩ 0
        [.digSuccess (waitAfterDig 0 (fun _ => false)), .digFail]).1.digsIssued = 1 ∧
    (mineBlockRun ⟨.mining, 5, none, 0, none⟩ 0
        [.digSuccess (waitAfterDig 0 (fun _ => false)), .digFail]).1.savedMined = some 5 := by
  decide

/-- C4 (amended): after a local dig completes, the confirmation waiter polls
tick by tick up to the adaptive confirm-tick count (6 if L>400, 4 if L>200,
3 if L>100, else 2) for the target location to be empty and returns `true`
exactly when it empties within that window; the calling mining-attempt loop,
however, discards this boolean and records the attempt as a success
(persisting progress) regardless of its value. -/
theorem wait_after_dig_adaptive_result_ignored (l : Rat) (emptyAt : Nat → Bool)
    (c : MineCtx) (a : Nat) (evs : List IterEvent) (conf : Bool) (h : a < 3) :
    (waitAfterDig l emptyAt = true ↔
      ∃ i, i < getAdaptiveWaitTicks l ∧ emptyAt i = true) ∧
    (mineBlockRun c a (.digSuccess conf :: evs)).2 = .mined ∧
    (mineBlockRun c a (.digSuccess conf :: evs)).1.savedMined = some c.minedBlocks := by
  refine ⟨waitForBlockBreak_eq_true_iff _ emptyAt, ?_, ?_⟩ <;>
    simp [mineBlockRun, h]

/-- Witness for C4 (amended) at latency 250 with the block emptying on the
second polled tick. -/
theorem wait_after_dig_adaptive_result_ignored_witness :
    (0 : Nat) < 3 ∧
    ((waitAfterDig 250 (fun i => decide (i = 1)) = true ↔
        ∃ i, i < getAdaptiveWaitTicks 250 ∧ decide (i = 1) = true) ∧
      (mineBlockRun ⟨.mining, 9, none, 0, none⟩ 0
          [.digSuccess false, .skipTarget]).2 = .mined ∧
      (mineBlockRun ⟨.mining, 9, none, 0, none⟩ 0
          [.digSuccess false, .skipTarget]).1.savedMined =
        some (⟨.mining, 9, none, 0, none⟩ : MineCtx).minedBlocks) :=
  ⟨by decide,
    wait_after_dig_adaptive_result_ignored 250 (fun i => decide (i = 1))
      ⟨.mining, 9, none, 0, none⟩ 0 [.skipTarget] false (by decide)⟩

theorem mineBlockRun_digs_le (evs : List IterEvent) : ∀ (c : MineCtx) (a : Nat),
    (mineBlockRun c a evs).1.digsIssued ≤ c.digsIssued + (3 - a) := by
  induction evs with
  | nil => intro c a; simp [mineBlockRun]
  | cons e rest ih =>
    intro c a
    simp only [mineBlockRun]
    by_cases h : a < 3
    · rw [if_pos h]
      cases e with
      | abortIdle => simp
      | skipTarget => simp
      | digFail =>
        have := ih { c with digsIssued := c.digsIssued + 1 } (a + 1)
        simp only at this ⊢
        omega
      | digSuccess conf => simp; omega
    · rw [if_neg h]
      simp

theorem mineBlockRun_preserves_mined (evs : List IterEvent) : ∀ (c : MineCtx) (a : Nat),
    (mineBlockRun c a evs).1.minedBlocks = c.minedBlocks := by
  induction evs with
  | nil => intro c a; simp [mineBlockRun]
  | cons e rest ih =>
    intro c a
    simp only [mineBlockRun]
    by_cases h : a < 3
    · rw [if_pos h]
      cases e with
      | abortIdle => simp
      | skipTarget => simp
      | digFail => exact ih { c with digsIssued := c.digsIssued + 1 } (a + 1)
      | digSuccess conf => simp
    · rw [if_neg h]

theorem mineBlockRun_mined_saves (evs : List IterEvent) : ∀ (c : MineCtx) (a : Nat),
    (mineBlockRun c a evs).2 = .mined →
      (mineBlockRun c a evs).1.savedMined = some c.minedBlocks := by
  induction evs with
  | nil =>
    intro c a h
    rw [mineBlockRun] at h
    split_ifs at h <;> simp_all
  | cons e rest ih =>
    intro c a
    simp only [mineBlockRun]
    by_cases h : a < 3
    · rw [if_pos h]
      cases e with
      | abortIdle => intro hr; simp_all
      | skipTarget => intro hr; simp_all
      | digFail =>
        intro hr
        exact ih { c with digsIssued := c.digsIssued + 1 } (a + 1) hr
      | digSuccess conf => intro hr; simp
    · rw [if_neg h]
      intro hr
      simp_all

/-- C2: for a target index `i` processed by the mining loop (the status is
not idle at the head of the iteration), the `mineBlock` retry loop issues at
most 3 dig attempts, and after it returns — whatever the result, including a
target whose attempts all fail — the mined counter equals `i + 1`. -/
theorem target_attempts_bounded_loop_advances (c : MineCtx) (i : Nat)
    (evs : List IterEvent) (h : c.status ≠ .idle) :
    (mineAreaStep c i evs).1.minedBlocks = i + 1 ∧
    (mineAreaStep c i evs).1.digsIssued ≤ c.digsIssued + 3 := by
  rw [mineAreaStep, if_neg h]
  refine ⟨rfl, ?_⟩
  by_cases h50 : i % 50 = 0
  · rw [if_pos h50]
    simpa using mineBlockRun_digs_le evs { c with savedMined := some c.minedBlocks } 0
  · rw [if_neg h50]
    simpa using mineBlockRun_digs_le evs c 0

/-- Witness for C2: a target whose 3 attempts all fail still advances the
mined counter to `i + 1`. -/
theorem target_attempts_bounded_loop_advances_witness :
    (⟨.mining, 4, none, 0, none⟩ : MineCtx).status ≠ .idle ∧
    ((mineAreaStep ⟨.mining, 4, none, 0, none⟩ 4
        [.digFail, .digFail, .digFail, .digFail]).1.minedBlocks = 4 + 1 ∧
      (mineAreaStep ⟨.mining, 4, none, 0, none⟩ 4
        [.digFail, .digFail, .digFail, .digFail]).1.digsIssued ≤
        (⟨.mining, 4, none, 0, none⟩ : MineCtx).digsIssued + 3) :=
  ⟨by decide,
    target_attempts_bounded_loop_advances ⟨.mining, 4, none, 0, none⟩ 4
      [.digFail, .digFail, .digFail, .digFail] (by decide)⟩

/-- C9: when the iteration for target `i` starts with `minedBlocks = i` and
the target is mined, the progress record persisted by the confirmed-success
path stores `i` — the pre-increment mined count, equal to the index of the
target just mined and strictly below the post-iteration counter `i + 1` —
and a resume from that record re-attempts exactly position `i` of the same
traversal. -/
theorem persisted_progress_preincrement (area : NormalizedArea) (c : MineCtx) (i : Nat)
    (evs : List IterEvent) (h1 : c.status = .mining) (h2 : c.minedBlocks = i)
    (h3 : (mineAreaStep c i evs).2 = .mined) :
    (mineAreaStep c i evs).1.savedMined = some i ∧
    i < (mineAreaStep c i evs).1.minedBlocks ∧
    firstResumedTarget ⟨area, i⟩ = (generateZigzagPositions area)[i]? := by
  have hni : c.status ≠ .idle := by rw [h1]; decide
  simp only [mineAreaStep, if_neg hni] at h3 ⊢
  by_cases h50 : i % 50 = 0
  · simp only [if_pos h50] at h3 ⊢
    have hs := mineBlockRun_mined_saves evs { c with savedMined := some c.minedBlocks } 0 h3
    simp only [h2] at hs ⊢
    exact ⟨hs, Nat.lt_succ_self i, rfl⟩
  · simp only [if_neg h50] at h3 ⊢
    have hs := mineBlockRun_mined_saves evs c 0 h3
    simp only [h2] at hs ⊢
    exact ⟨hs, Nat.lt_succ_self i, rfl⟩

/-- Witness for C9 at a concrete succeeding iteration. -/
theorem persisted_progress_preincrement_witness :
    ((⟨.mining, 2, none, 0, none⟩ : MineCtx).status = .mining ∧
      (⟨.mining, 2, none, 0, none⟩ : MineCtx).minedBlocks = 2 ∧
      (mineAreaStep ⟨.mining, 2, none, 0, none⟩ 2 [.digSuccess true]).2 = .mined) ∧
    ((mineAreaStep ⟨.mining, 2, none, 0, none⟩ 2 [.digSuccess true]).1.savedMined =
        some 2 ∧
      2 < (mineAreaStep ⟨.mining, 2, none, 0, none⟩ 2 [.digSuccess true]).1.minedBlocks ∧
      firstResumedTarget ⟨⟨⟨0, 0, 0⟩, ⟨1, 0, 1⟩⟩, 2⟩ =
        (generateZigzagPositions ⟨⟨0, 0, 0⟩, ⟨1, 0, 1⟩⟩)[2]?) :=
  ⟨⟨rfl, rfl, by decide⟩,
    persisted_progress_preincrement ⟨⟨0, 0, 0⟩, ⟨1, 0, 1⟩⟩
      ⟨.mining, 2, none, 0, none⟩ 2 [.digSuccess true] rfl rfl (by decide)⟩

theorem triggerRecovery_guard_recovering (s : ASState) (e : TriggerEnv)
    (h : s.recovering = true) : triggerRecovery s e = s := by
  rw [triggerRecovery, if_pos h]

theorem triggerRecovery_guard_cooldown (s : ASState) (e : TriggerEnv)
    (h1 : s.recovering = false)
    (h2 : e.now - s.lastRecoveryTime < recoveryCooldown e.ping) :
    triggerRecovery s e = s := by
  rw [triggerRecovery]
  simp only [h1, Bool.false_eq_true, if_false, if_pos h2]

theorem triggerRecovery_exec_fields (s : ASState) (e : TriggerEnv)
    (h1 : s.recovering = false)
    (h2 : ¬(e.now - s.lastRecoveryTime < recoveryCooldown e.ping)) :
    (triggerRecovery s e).recovering = false ∧
    (triggerRecovery s e).lastRecoveryTime = e.now := by
  rw [triggerRecovery]
  simp only [h1, Bool.false_eq_true, if_false, if_neg h2]
  simp

/-- C6: two recovery triggers collapse into a single execution — a trigger
arriving while a recovery is still executing (in-recovery flag set) performs
nothing and leaves the whole state (level, statistics, flag) unchanged, and
a trigger arriving within the adaptive cooldown (2000 + L ms) of the
previous execution's start likewise returns the state of the first
execution unchanged. -/
theorem recovery_triggers_collapse (s : ASState) (e1 e2 : TriggerEnv)
    (h1 : s.recovering = false)
    (h2 : ¬(e1.now - s.lastRecoveryTime < recoveryCooldown e1.ping))
    (hcool : e2.now - e1.now < recoveryCooldown e2.ping) :
    triggerRecovery (triggerRecovery s e1) e2 = triggerRecovery s e1 ∧
    (∀ sb : ASState, sb.recovering = true → triggerRecovery sb e2 = sb) := by
  obtain ⟨hr, hl⟩ := triggerRecovery_exec_fields s e1 h1 h2
  exact ⟨triggerRecovery_guard_cooldown _ e2 hr (by rw [hl]; exact hcool),
    fun sb hb => triggerRecovery_guard_recovering sb e2 hb⟩

/-- Witness for C6: a second trigger 100 ms after a first executed trigger
(cooldown 2100 ms at ping 100) changes nothing. -/
theorem recovery_triggers_collapse_witness :
    ((asInit.recovering = false ∧
        ¬((5000 : Rat) - asInit.lastRecoveryTime < recoveryCooldown 100) ∧
        (5100 : Rat) - 5000 < recoveryCooldown 100) ∧
      (triggerRecovery (triggerRecovery asInit ⟨5000, 100, false, false, false⟩)
          ⟨5100, 100, false, false, false⟩ =
        triggerRecovery asInit ⟨5000, 100, false, false, false⟩ ∧
      (∀ sb : ASState, sb.recovering = true →
        triggerRecovery sb ⟨5100, 100, false, false, false⟩ = sb))) :=
  ⟨⟨rfl, by norm_num [asInit, recoveryCooldown], by norm_num [recoveryCooldown]⟩,
    recovery_triggers_collapse asInit ⟨5000, 100, false, false, false⟩
      ⟨5100, 100, false, false, false⟩
      rfl (by norm_num [asInit, recoveryCooldown]) (by norm_num [recoveryCooldown])⟩

theorem minRecoveryLevel_bounds (l : Rat) :
    0 ≤ minRecoveryLevel l ∧ minRecoveryLevel l ≤ 2 := by
  rw [minRecoveryLevel]; split_ifs <;> norm_num

theorem raisedLevel_bounds (lvl minLvl : Int) (h0 : 0 ≤ lvl) (h5 : lvl ≤ 5)
    (hm0 : 0 ≤ minLvl) (hm2 : minLvl ≤ 2) :
    0 ≤ raisedLevel lvl minLvl ∧ raisedLevel lvl minLvl ≤ 5 := by
  rw [raisedLevel]; split_ifs <;> omega

theorem levelAfterHandler_bounds (lvl : Int) (er lr : Bool) (h0 : 0 ≤ lvl)
    (h5 : lvl ≤ 5) :
    0 ≤ levelAfterHandler lvl er lr ∧ levelAfterHandler lvl er lr ≤ 5 := by
  rw [levelAfterHandler]; split_ifs <;> omega

theorem levelAfterRecheck_bounds (lvl : Int) (er ss : Bool) (h0 : 0 ≤ lvl)
    (h5 : lvl ≤ 5) :
    0 ≤ levelAfterRecheck lvl er ss ∧ levelAfterRecheck lvl er ss ≤ 5 := by
  rw [levelAfterRecheck, MAX_RECOVERY_LEVEL]
  split_ifs <;> constructor <;>
    first
    | exact le_max_left _ _
    | exact min_le_right _ _
    | omega
    | (refine le_min ?_ ?_ <;> omega)
    | (refine max_le ?_ ?_ <;> omega)

theorem triggerRecovery_level_bounds (s : ASState) (e : TriggerEnv)
    (h0 : 0 ≤ s.recoveryLevel) (h5 : s.recoveryLevel ≤ MAX_RECOVERY_LEVEL) :
    0 ≤ (triggerRecovery s e).recoveryLevel ∧
    (triggerRecovery s e).recoveryLevel ≤ MAX_RECOVERY_LEVEL := by
  rw [MAX_RECOVERY_LEVEL] at h5 ⊢
  rw [triggerRecovery]
  obtain ⟨hm0, hm2⟩ := minRecoveryLevel_bounds e.ping
  obtain ⟨r0, r5⟩ := raisedLevel_bounds s.recoveryLevel (minRecoveryLevel e.ping) h0 h5 hm0 hm2
  obtain ⟨a0, a5⟩ := levelAfterHandler_bounds _ e.errored e.lvl5ResetRan r0 r5
  obtain ⟨b0, b5⟩ := levelAfterRecheck_bounds _ e.errored e.stillStuck a0 a5
  split_ifs <;> first | exact ⟨h0, h5⟩ | exact ⟨b0, b5⟩

theorem asApply_level_bounds (s : ASState) (ev : ASEvent)
    (h0 : 0 ≤ s.recoveryLevel) (h5 : s.recoveryLevel ≤ MAX_RECOVERY_LEVEL) :
    0 ≤ (asApply s ev).recoveryLevel ∧
    (asApply s ev).recoveryLevel ≤ MAX_RECOVERY_LEVEL := by
  have hmax0 : (0 : Int) ≤ Max.max 0 (s.recoveryLevel - 1) := le_max_left _ _
  have hmax5 : Max.max 0 (s.recoveryLevel - 1) ≤ MAX_RECOVERY_LEVEL := by
    rw [MAX_RECOVERY_LEVEL] at *
    refine max_le (by omega) (by omega)
  have hz5 : (0 : Int) ≤ MAX_RECOVERY_LEVEL := by rw [MAX_RECOVERY_LEVEL]; omega
  cases ev with
  | trigger e => exact triggerRecovery_level_bounds s e h0 h5
  | tickOverlap e =>
    rw [asApply, tickMonitorOverlap]
    split_ifs with hg ht
    · exact ⟨h0, h5⟩
    · exact triggerRecovery_level_bounds _ e h0 h5
    · exact ⟨h0, h5⟩
  | tickClear =>
    rw [asApply, tickMonitorClear]
    split_ifs with hg ht
    · exact ⟨h0, h5⟩
    · exact ⟨hmax0, hmax5⟩
    · exact ⟨h0, h5⟩
  | enable =>
    rw [asApply, asEnable]
    split_ifs <;> exact ⟨h0, h5⟩
  | disable =>
    rw [asApply, asDisable]
    split_ifs
    · exact ⟨h0, h5⟩
    · exact ⟨le_refl 0, hz5⟩
  | reset =>
    rw [asApply, asReset]
    exact ⟨le_refl 0, hz5⟩

theorem foldl_asApply_level_bounds (evs : List ASEvent) : ∀ s : ASState,
    0 ≤ s.recoveryLevel → s.recoveryLevel ≤ MAX_RECOVERY_LEVEL →
      0 ≤ (evs.foldl asApply s).recoveryLevel ∧
      (evs.foldl asApply s).recoveryLevel ≤ MAX_RECOVERY_LEVEL := by
  induction evs with
  | nil => intro s h0 h5; exact ⟨h0, h5⟩
  | cons ev rest ih =>
    intro s h0 h5
    obtain ⟨g0, g5⟩ := asApply_level_bounds s ev h0 h5
    exact ih (asApply s ev) g0 g5

/-- C5: the recovery level stays within `[0, 5]` for every sequence of
recovery events — triggers (with floor-raise to the adaptive minimum level,
escalation after a still-obstructed re-check, de-escalation after a clear
re-check, and the level-5 emergency reset), suffocation ticks, clear ticks,
enable, disable and reset — starting from the initial state: it never goes
negative and never exceeds `MAX_RECOVERY_LEVEL = 5`. -/
theorem recovery_level_bounded (evs : List ASEvent) :
    0 ≤ (asRun evs).recoveryLevel ∧ (asRun evs).recoveryLevel ≤ MAX_RECOVERY_LEVEL :=
  foldl_asApply_level_bounds evs asInit (by norm_num [asInit]) (by norm_num [asInit, MAX_RECOVERY_LEVEL])

/-- Invariant of the `gotoWithTimeout` state machine: once settled, the
controls are released and both timers are cleared; a pending call has no
result; and a path-timeout result implies the solve was cancelled. -/
def NavInv (s : NavState) : Prop :=
  (s.isDone = true → s.controlsActive = false ∧ s.timerActive = false ∧
    s.checkerActive = false) ∧
  (s.isDone = false → s.result = none) ∧
  (s.result = some (some .pathTimeout) → s.solveCancelled = true)

theorem navFinish_inv (s : NavState) (err : Option NavErr) (h : NavInv s)
    (hc : err = some .pathTimeout → s.isDone = false → s.solveCancelled = true) :
    NavInv (navFinish s err) := by
  rw [navFinish]
  by_cases hd : s.isDone
  · rw [if_pos hd]; exact h
  · rw [if_neg hd]
    refine ⟨fun _ => ⟨rfl, rfl, rfl⟩, fun hf => by simp at hf, fun hr => ?_⟩
    have : err = some .pathTimeout := by
      simpa using hr
    simpa using hc this (by simpa using hd)

theorem navStep_inv (s : NavState) (ev : NavEvent) (h : NavInv s) :
    NavInv (navStep s ev) := by
  obtain ⟨d, sm, ca, ta, ck, sc, r⟩ := s
  simp only [NavInv] at h ⊢
  obtain ⟨hdone, hpend, hto⟩ := h
  cases ev <;>
    simp only [navStep, navFinish] <;>
    split_ifs <;>
    (refine ⟨fun hq => ?_, fun hq => ?_, fun hq => ?_⟩ <;> simp_all)

theorem foldl_navStep_inv (evs : List NavEvent) :
    ∀ s : NavState, NavInv s → NavInv (evs.foldl navStep s) := by
  induction evs with
  | nil => intro s h; exact h
  | cons e rest ih =>
    intro s h
    rw [List.foldl_cons]
    exact ih _ (navStep_inv s e h)

theorem navRun_inv (c0 : Bool) (evs : List NavEvent) : NavInv (navRun c0 evs) := by
  rw [navRun]
  refine foldl_navStep_inv evs (navInit c0) ⟨fun hd => ?_, fun _ => rfl, fun hr => ?_⟩
  · simp [navInit] at hd
  · simp [navInit] at hr

/-- C8: for every trace of one navigation operation through
`gotoWithTimeout`, whenever the call has resolved or rejected (`result`
settled) all movement control inputs set by it are released; when it failed
with the path-timeout error the underlying solve was cancelled via
`pathfinder.stop()`; and the timeout timer firing on a pending call always
cancels the solve and settles the call with the path-timeout error. -/
theorem navigator_releases_controls (c0 : Bool) (evs : List NavEvent)
    (r : Option NavErr) (h : (navRun c0 evs).result = some r) :
    (navRun c0 evs).controlsActive = false ∧
    ((navRun c0 evs).result = some (some .pathTimeout) →
      (navRun c0 evs).solveCancelled = true) ∧
    (∀ st : NavState, st.timerActive = true → st.isDone = false →
      (navStep st .timerFire).result = some (some .pathTimeout) ∧
      (navStep st .timerFire).solveCancelled = true) := by
  obtain ⟨hdone, hpend, hto⟩ := navRun_inv c0 evs
  have hd : (navRun c0 evs).isDone = true := by
    rcases Bool.eq_false_or_eq_true (navRun c0 evs).isDone with hb | hb
    · exact hb
    · rw [hpend hb] at h; cases h
  refine ⟨(hdone hd).1, hto, ?_⟩
  intro st ht hdn
  obtain ⟨d, sm, ca, ta, ck, sc, r2⟩ := st
  simp only at ht hdn
  subst ht
  subst hdn
  simp [navStep, navFinish]

/-- Witness for C8: a timed-out navigation with the jump impulse pending —
controls are released, the result is the path-timeout error and the solve
was cancelled. -/
theorem navigator_releases_controls_witness :
    (navRun true [NavEvent.timerFire]).result = some (some .pathTimeout) ∧
    ((navRun true [NavEvent.timerFire]).controlsActive = false ∧
      ((navRun true [NavEvent.timerFire]).result = some (some .pathTimeout) →
        (navRun true [NavEvent.timerFire]).solveCancelled = true) ∧
      (∀ st : NavState, st.timerActive = true → st.isDone = false →
        (navStep st .timerFire).result = some (some .pathTimeout) ∧
        (navStep st .timerFire).solveCancelled = true)) :=
  ⟨by decide,
    navigator_releases_controls true [NavEvent.timerFire] (some .pathTimeout) (by decide)⟩

/-- C10: no recovery action digs bedrock — every block returned by the
overlapping-block scan (hence every block the suffocation clearing digs) has
a name other than `bedrock`, and every block dug by the level-5 emergency
clear is non-bedrock and is never the cell directly beneath the agent's feet
(offset (0,-1,0)). -/
theorem recovery_never_digs_bedrock (w : World) (pos : EntityPos) (feet : Vec3)
    (shouldMine : Block → Bool) :
    (∀ b ∈ getOverlappingBlocks w pos, b.name ≠ "bedrock") ∧
    (∀ b ∈ clearOverlappingDigs shouldMine w pos, b.name ≠ "bedrock") ∧
    (∀ pb ∈ recoverLevel5Digs w feet,
      pb.2.name ≠ "bedrock" ∧ pb.1 ≠ feet.offsetBy 0 (-1) 0) := by
  have hover : ∀ b ∈ getOverlappingBlocks w pos, b.name ≠ "bedrock" := by
    intro b hb
    rw [getOverlappingBlocks] at hb
    simp only [List.mem_flatMap, List.mem_filterMap] at hb
    obtain ⟨bx, _, my, _, bz, _, hf⟩ := hb
    revert hf
    cases w ⟨bx, my, bz⟩ with
    | none => intro hf; cases hf
    | some b0 =>
      intro hf
      dsimp only at hf
      split_ifs at hf with hbb hname haabb
      all_goals
        first
        | (injection hf with he; subst he; exact hname)
        | cases hf
  refine ⟨hover, ?_, ?_⟩
  · intro b hb
    rw [clearOverlappingDigs] at hb
    exact hover b (List.mem_of_mem_filter hb)
  · intro pb hpb
    rw [recoverLevel5Digs] at hpb
    simp only [List.mem_flatMap, List.mem_filterMap] at hpb
    obtain ⟨dy, hdy, dx, hdx, dz, hdz, hf⟩ := hpb
    rw [mem_intRange] at hdy hdx hdz
    revert hf
    split_ifs with hskip
    · intro hf; cases hf
    · cases w (feet.offsetBy dx dy dz) with
      | none => intro hf; cases hf
      | some b0 =>
        intro hf
        dsimp only at hf
        split_ifs at hf with hcond
        all_goals
          first
          | (injection hf with he
             subst he
             refine ⟨hcond.2, fun heq => hskip ?_⟩
             rw [Vec3.offsetBy, Vec3.offsetBy, Vec3.mk.injEq] at heq
             exact ⟨by omega, by omega, by omega⟩)
          | cases hf

end Lyaris
